import Mathlib

/-!
Shallow embedding of the compilation-output caching backend implemented in
lib/Frontend/CASOutputBackends.cpp (class SwiftCASOutputBackend and its
Implementation).  Content-store references are modelled as natural numbers,
byte sequences as lists of naturals, and the external CAS / ActionCache
collaborators as an explicit environment of (possibly failing) functions.
llvm::DenseMap::insert and llvm::StringMap::insert keep the existing entry
when the key is already present; the association-list inserts below mirror
that exactly.  llvm_unreachable and assert failures are modelled as error
outcomes, following the taxonomy of the design document (EncodeError,
RouteNotFound).
-/

/-- Opaque content reference returned by the content store (llvm::cas::ObjectRef). -/
abbrev ObjectRef := Nat

/-- Byte sequence written to an output stream. -/
abbrev ByteString := List Nat

/-- Subset of swift::file_types::ID used by the backend, with the fixed
enumeration order that the sort in finalizeCacheKeysFor compares by. -/
inductive FileTypeID where
  | TY_Object
  | TY_SwiftModuleFile
  | TY_Dependencies
  | TY_SerializedDiagnostics
  | TY_ClangModuleFile
  | TY_CachedDiagnostics
  deriving DecidableEq, Repr

/-- Numeric position of a file type in the fixed enumeration order. -/
def kindIdx : FileTypeID → Nat
  | .TY_Object => 0
  | .TY_SwiftModuleFile => 1
  | .TY_Dependencies => 2
  | .TY_SerializedDiagnostics => 3
  | .TY_ClangModuleFile => 4
  | .TY_CachedDiagnostics => 5

/-- Modelled from the spec: file_types::isProducedFromDiagnostics (defined in
lib/Basic/FileTypes.cpp, which is not part of the sampled sources).  The spec
describes the diagnostics pseudo-artifact kinds as the outputs derived from
diagnostics, which bypass the content store. -/
def isProducedFromDiagnostics : FileTypeID → Bool
  | .TY_SerializedDiagnostics => true
  | .TY_CachedDiagnostics => true
  | _ => false

/-- Output slots of the clang-compatible result schema
(clang::cas::CompileJobCacheResult::OutputKind). -/
inductive ClangOutputKind where
  | MainOutput
  | SerializedDiagnostics
  | Dependencies
  deriving DecidableEq, Repr

/-- Aggregate result record assembled by finalizeCacheKeysFor before it is
stored in the CAS: either the clang-compatible schema used when emitting a
PCM, or the open-ended swift schema. -/
inductive CacheRecord where
  | clangSchema (outputs : List (ClangOutputKind × ObjectRef))
  | swiftSchema (outputs : List (FileTypeID × ObjectRef))
  deriving DecidableEq, Repr

/-- Subset of swift::FrontendOptions::ActionType relevant to the schema
dispatch in finalizeCacheKeysFor. -/
inductive ActionType where
  | EmitPCM
  | EmitObject
  | EmitModuleOnly
  deriving DecidableEq, Repr

/-- Error taxonomy of the backend.  storeError models a failing
ObjectStore::storeFromString (and a failing Builder.build), encodeError models
the llvm_unreachable on an out-of-schema kind, keyError a failing
createCompileJobCacheKeyForOutput, cacheWriteError a failing ActionCache::put,
and routeNotFound the assertion on an undeclared output path. -/
inductive BackendError where
  | storeError
  | encodeError
  | keyError
  | cacheWriteError
  | routeNotFound
  deriving DecidableEq, Repr

/-- Observable interactions with the external content store and action cache. -/
inductive Event where
  | casStore (bytes : ByteString)
  | casStoreRecord (record : CacheRecord)
  | cachePut (key : ObjectRef) (value : ObjectRef)
  deriving DecidableEq, Repr

/-- External collaborators: the content store (ObjectStore), the record
builder's final store, the cache-key derivation and the action cache.  Each is
a pure function, so the content-addressing invariant (equal bytes give equal
references) holds by construction. -/
structure Env where
  storeBytes : ByteString → Except Unit ObjectRef
  storeRecord : CacheRecord → Except Unit ObjectRef
  deriveKey : ObjectRef → Nat → Except Unit ObjectRef
  cachePutOk : ObjectRef → ObjectRef → Bool

/-- One frontend input with its main output path and its set supplementary
output paths, mirroring what initBackend reads from FrontendInputsAndOutputs.
An empty outputFilename means the input declares no main output. -/
structure InputFile where
  outputFilename : String
  supplementaryOutputs : List (String × FileTypeID)
  deriving DecidableEq, Repr

/-- View of FrontendInputsAndOutputs used by initBackend: the inputs in
order, the principal output type, and the index of the first
output-producing input. -/
structure InputsAndOutputs where
  inputs : List InputFile
  principalOutputType : FileTypeID
  firstOutputProducingIndex : Nat
  deriving DecidableEq, Repr

/-- Route table entries: output path to (input index, output kind), the
contents of the StringMap OutputToInputMap. -/
abbrev RouteMap := List (String × Nat × FileTypeID)

/-- Per-input pending artifact map, the contents of one
DenseMap of file_types::ID to ObjectRef. -/
abbrev DMap := List (FileTypeID × ObjectRef)

/-- Lookup in the route table (StringMap::find). -/
def smLookup : RouteMap → String → Option (Nat × FileTypeID)
  | [], _ => none
  | (k, v) :: rest, p => if k = p then some v else smLookup rest p

/-- StringMap::insert: keeps the existing entry when the key is present. -/
def smInsert (m : RouteMap) (k : String) (v : Nat × FileTypeID) : RouteMap :=
  match smLookup m k with
  | some _ => m
  | none => m ++ [(k, v)]

/-- Membership test on a pending artifact map (DenseMap::count). -/
def dmContains : DMap → FileTypeID → Bool
  | [], _ => false
  | (k, _) :: rest, q => if k = q then true else dmContains rest q

/-- Lookup on a pending artifact map (DenseMap::find). -/
def dmLookup : DMap → FileTypeID → Option ObjectRef
  | [], _ => none
  | (k, r) :: rest, q => if k = q then some r else dmLookup rest q

/-- DenseMap::insert: keeps the existing entry when the key is present. -/
def dmInsert (m : DMap) (k : FileTypeID) (r : ObjectRef) : DMap :=
  if dmContains m k then m else m ++ [(k, r)]

/-- Route-table construction from the job plan, translated from
SwiftCASOutputBackend::Implementation::initBackend: for each input its main
output path (when non-empty) with the principal output type, each set
supplementary output path whose kind is not produced from diagnostics, and
finally the synthetic cached-diagnostics path for the first output-producing
input. -/
def initBackend (io : InputsAndOutputs) : RouteMap :=
  let addInput := fun (m : RouteMap) (idx : Nat) (input : InputFile) =>
    let m1 := if input.outputFilename ≠ "" then
        smInsert m input.outputFilename (idx, io.principalOutputType)
      else m
    input.supplementaryOutputs.foldl
      (fun acc e =>
        if isProducedFromDiagnostics e.2 then acc else smInsert acc e.1 (idx, e.2))
      m1
  let m := (io.inputs.enum.foldl (fun acc e => addInput acc e.1 e.2) [])
  smInsert m "<cached-diagnostics>"
    (io.firstOutputProducingIndex, FileTypeID.TY_CachedDiagnostics)

/-- State and configuration of one SwiftCASOutputBackend::Implementation:
the injected collaborators, the base key, the job plan, the action type, the
route table and the per-input pending artifact maps (OutputRefs). -/
structure Backend where
  env : Env
  baseKey : ObjectRef
  inputsAndOutputs : InputsAndOutputs
  action : ActionType
  outputToInputMap : RouteMap
  outputRefs : List DMap

/-- Construction of a backend (Implementation constructor followed by
initBackend, including the resize of OutputRefs to one empty map per input). -/
def mkBackend (env : Env) (baseKey : ObjectRef) (io : InputsAndOutputs)
    (action : ActionType) : Backend :=
  ⟨env, baseKey, io, action, initBackend io,
    List.replicate io.inputs.length []⟩

/-- SwiftCASOutputBackend::cloneImpl: builds a fresh backend from the same
collaborators, base key, job plan and action type. -/
def cloneImpl (b : Backend) : Backend :=
  mkBackend b.env b.baseKey b.inputsAndOutputs b.action

/-- Outcome of a store or keep operation: the resulting backend state, the
external interactions that happened, and the error (none models
Error::success()). -/
structure StoreResult where
  state : Backend
  events : List Event
  error : Option BackendError

/-- Mutation of OutputRefs at line 189: insert the stored reference into the
input's pending map (DenseMap::insert, first write wins). -/
def insertOutput (b : Backend) (idx : Nat) (k : FileTypeID) (r : ObjectRef) :
    Backend :=
  { b with outputRefs :=
      b.outputRefs.set idx (dmInsert (b.outputRefs.getD idx []) k r) }

/-- Completeness condition of finalizeCacheKeysFor (lines 200-204): every
route-table entry for this input has its kind present in the produced map. -/
def jobComplete (m : RouteMap) (produced : DMap) (idx : Nat) : Bool :=
  m.all fun e => decide (e.2.1 ≠ idx) || dmContains produced e.2.2

/-- Comparison used by the sort at lines 211-212 (compare the file type ids). -/
def kindLE (a b : FileTypeID × ObjectRef) : Prop := kindIdx a.1 ≤ kindIdx b.1

instance : DecidableRel kindLE := fun a b => Nat.decLe (kindIdx a.1) (kindIdx b.1)

instance : IsTotal (FileTypeID × ObjectRef) kindLE :=
  ⟨fun a b => Nat.le_total (kindIdx a.1) (kindIdx b.1)⟩

instance : IsTrans (FileTypeID × ObjectRef) kindLE :=
  ⟨fun _ _ _ h1 h2 => Nat.le_trans h1 h2⟩

/-- Model of llvm::sort over the produced (kind, ref) pairs, ordering by the
fixed kind order. -/
def sortByKind (l : List (FileTypeID × ObjectRef)) : List (FileTypeID × ObjectRef) :=
  List.insertionSort kindLE l

/-- Slot assignment of the clang-compatible schema (the if chain at lines
219-233); none models the llvm_unreachable branch. -/
def clangSlotOf : FileTypeID → Option ClangOutputKind
  | .TY_ClangModuleFile => some .MainOutput
  | .TY_CachedDiagnostics => some .SerializedDiagnostics
  | .TY_Dependencies => some .Dependencies
  | _ => none

/-- Accumulation of the clang-compatible builder over the sorted outputs;
fails with encodeError on the first out-of-schema kind (llvm_unreachable at
line 233). -/
def clangSlots : List (FileTypeID × ObjectRef) →
    Except BackendError (List (ClangOutputKind × ObjectRef))
  | [] => .ok []
  | (k, r) :: rest =>
    match clangSlotOf k with
    | some ck =>
      match clangSlots rest with
      | .ok tail => .ok ((ck, r) :: tail)
      | .error e => .error e
    | none => .error .encodeError

/-- Schema dispatch of finalizeCacheKeysFor (lines 215-247) applied to the
already sorted outputs: the clang-compatible record when emitting a PCM,
otherwise the swift record listing every pair in sorted order. -/
def buildResult (action : ActionType) (outs : List (FileTypeID × ObjectRef)) :
    Except BackendError CacheRecord :=
  match action with
  | .EmitPCM =>
    match clangSlots outs with
    | .ok slots => .ok (CacheRecord.clangSchema slots)
    | .error e => .error e
  | _ => .ok (CacheRecord.swiftSchema outs)

/-- SwiftCASOutputBackend::Implementation::finalizeCacheKeysFor: if any
route-table kind for the input is missing from its pending map, return
success without doing anything; otherwise sort the produced pairs, build the
schema record, store it, derive the cache key
(createCompileJobCacheKeyForOutput, modelled by the environment's pure
deriveKey as the spec describes) and put the entry into the action cache. -/
def finalizeCacheKeysFor (b : Backend) (idx : Nat) : StoreResult :=
  let produced := b.outputRefs.getD idx []
  if jobComplete b.outputToInputMap produced idx then
    match buildResult b.action (sortByKind produced) with
    | .error e => ⟨b, [], some e⟩
    | .ok record =>
      match b.env.storeRecord record with
      | .error _ => ⟨b, [Event.casStoreRecord record], some .storeError⟩
      | .ok resultRef =>
        match b.env.deriveKey b.baseKey idx with
        | .error _ => ⟨b, [Event.casStoreRecord record], some .keyError⟩
        | .ok cacheKey =>
          if b.env.cachePutOk cacheKey resultRef then
            ⟨b, [Event.casStoreRecord record, Event.cachePut cacheKey resultRef], none⟩
          else
            ⟨b, [Event.casStoreRecord record, Event.cachePut cacheKey resultRef],
              some .cacheWriteError⟩
  else ⟨b, [], none⟩

/-- SwiftCASOutputBackend::Implementation::storeImpl: store the bytes in the
content store (propagating failure before any mutation), insert the reference
into the input's pending map, then run finalizeCacheKeysFor.  The path
argument is only used for logging in the source and is ignored here too. -/
def storeImpl (b : Backend) (Path : String) (Bytes : ByteString)
    (InputIndex : Nat) (OutputKind : FileTypeID) : StoreResult :=
  match b.env.storeBytes Bytes with
  | .error _ => ⟨b, [], some .storeError⟩
  | .ok bytesRef =>
    let b1 := insertOutput b InputIndex OutputKind bytesRef
    let fin := finalizeCacheKeysFor b1 InputIndex
    ⟨fin.state, Event.casStore Bytes :: fin.events, fin.error⟩

/-- SwiftCASOutputBackend::storeCachedDiagnostics: stores under the synthetic
cached-diagnostics path with kind TY_CachedDiagnostics. -/
def storeCachedDiagnostics (b : Backend) (InputIndex : Nat) (Bytes : ByteString) :
    StoreResult :=
  storeImpl b "<cached-diagnostics>" Bytes InputIndex FileTypeID.TY_CachedDiagnostics

/-- Kind of file handle returned by createFileImpl. -/
inductive CreatedFile where
  | nullOutput
  | casOutputFile (inputIndex : Nat) (kind : FileTypeID)
  deriving DecidableEq, Repr

/-- SwiftCASOutputBackend::Implementation::createFileImpl: resolve the path in
the route table (the failed assert on an unknown path is modelled as
routeNotFound), return a null file for kinds produced from diagnostics, and
otherwise a CAS output file bound to the resolved input and kind. -/
def createFileImpl (b : Backend) (resolvedPath : String) :
    Except BackendError CreatedFile :=
  match smLookup b.outputToInputMap resolvedPath with
  | none => .error .routeNotFound
  | some (idx, ty) =>
    if isProducedFromDiagnostics ty then .ok .nullOutput
    else .ok (.casOutputFile idx ty)

/-- Requesting an output at a path and keeping the written bytes: a null
output file's keep is a no-op success, a CAS output file's keep runs
storeImpl (SwiftCASOutputFile::keep calling the OnKeep closure). -/
def keepOutput (b : Backend) (path : String) (bytes : ByteString) : StoreResult :=
  match createFileImpl b path with
  | .error e => ⟨b, [], some e⟩
  | .ok .nullOutput => ⟨b, [], none⟩
  | .ok (.casOutputFile idx ty) => storeImpl b path bytes idx ty

/-- Sequence of store operations for one input, threading the state. -/
def storeSeq (b : Backend) (idx : Nat) : List (FileTypeID × ByteString) → Backend
  | [] => b
  | (k, bs) :: rest => storeSeq (storeImpl b "" bs idx k).state idx rest

/-- Number of action-cache put interactions in an event list. -/
def countPuts (evs : List Event) : Nat :=
  evs.countP fun e => match e with | .cachePut _ _ => true | _ => false

/-- Reference of the stored record, when encoding succeeded. -/
def recordRefOf (env : Env) : Except BackendError CacheRecord →
    Except BackendError ObjectRef
  | .error e => .error e
  | .ok record =>
    match env.storeRecord record with
    | .error _ => .error .storeError
    | .ok r => .ok r

/-- Concrete environment used by witnesses: the reference of a byte string is
its first byte, records store to 100, keys derive to baseKey + idx + 50. -/
def env0 : Env :=
  ⟨fun bs => .ok (bs.headD 0), fun _ => .ok 100,
    fun bk i => .ok (bk + i + 50), fun _ _ => true⟩

/-- Concrete single-input job plan used by witnesses. -/
def io0 : InputsAndOutputs :=
  ⟨[⟨"a.o", []⟩], FileTypeID.TY_Object, 0⟩

/-! Helper lemmas shared by the claim theorems. -/

theorem finalize_state_eq (b : Backend) (idx : Nat) :
    (finalizeCacheKeysFor b idx).state = b := by
  unfold finalizeCacheKeysFor
  dsimp only
  split
  · split
    · rfl
    · split
      · rfl
      · split
        · rfl
        · split <;> rfl
  · rfl

theorem list_set_getD_self {α : Type} (l : List α) (i : Nat) (d : α)
    (h : i < l.length) : l.set i (l.getD i d) = l := by
  induction l generalizing i with
  | nil => simp at h
  | cons a t ih =>
    cases i with
    | zero => simp [List.getD]
    | succ n =>
      have hn : n < t.length := Nat.lt_of_succ_lt_succ (by simpa using h)
      simp only [List.set_cons_succ, List.getD_cons_succ]
      rw [ih n hn]

theorem dmInsert_contained (m : DMap) (k : FileTypeID) (r : ObjectRef)
    (h : dmContains m k = true) : dmInsert m k r = m := by
  simp [dmInsert, h]

theorem dmContains_idx_lt (b : Backend) (idx : Nat) (k : FileTypeID)
    (h : dmContains (b.outputRefs.getD idx []) k = true) :
    idx < b.outputRefs.length := by
  by_contra hge
  rw [List.getD_eq_default _ _ (Nat.le_of_not_lt hge)] at h
  simp [dmContains] at h

theorem insertOutput_contained (b : Backend) (idx : Nat) (k : FileTypeID)
    (r : ObjectRef) (h : dmContains (b.outputRefs.getD idx []) k = true) :
    insertOutput b idx k r = b := by
  have hlt := dmContains_idx_lt b idx k h
  unfold insertOutput
  rw [dmInsert_contained _ _ _ h, list_set_getD_self _ _ _ hlt]

theorem storeImpl_ok_eq (b : Backend) (p : String) (bs : ByteString)
    (idx : Nat) (k : FileTypeID) (r : ObjectRef)
    (h : b.env.storeBytes bs = Except.ok r) :
    storeImpl b p bs idx k =
      ⟨insertOutput b idx k r,
        Event.casStore bs :: (finalizeCacheKeysFor (insertOutput b idx k r) idx).events,
        (finalizeCacheKeysFor (insertOutput b idx k r) idx).error⟩ := by
  simp [storeImpl, h, finalize_state_eq]

theorem finalize_incomplete_eq (b : Backend) (idx : Nat)
    (h : jobComplete b.outputToInputMap (b.outputRefs.getD idx []) idx = false) :
    finalizeCacheKeysFor b idx = ⟨b, [], none⟩ := by
  unfold finalizeCacheKeysFor
  dsimp only
  rw [h]
  simp

theorem finalize_events_put_complete (b : Backend) (idx : Nat) (key v : ObjectRef)
    (h : Event.cachePut key v ∈ (finalizeCacheKeysFor b idx).events) :
    jobComplete b.outputToInputMap (b.outputRefs.getD idx []) idx = true := by
  by_contra hfalse
  simp only [Bool.not_eq_true] at hfalse
  rw [finalize_incomplete_eq b idx hfalse] at h
  simp at h

/-! Claim theorems. -/

/-- C1: for every job (input index), a cache entry is written only when every
artifact kind declared for that job in the route table is present in the
job's pending set after the insert; if any declared kind is missing, storeImpl
returns success having performed only the byte store: no record is encoded and
nothing is written to the action cache. -/
theorem storeImpl_finalizes_only_when_complete (b : Backend) (p : String)
    (bs : ByteString) (idx : Nat) (k : FileTypeID) (r : ObjectRef)
    (hok : b.env.storeBytes bs = Except.ok r) :
    (jobComplete b.outputToInputMap
        ((insertOutput b idx k r).outputRefs.getD idx []) idx = false →
      storeImpl b p bs idx k =
        ⟨insertOutput b idx k r, [Event.casStore bs], none⟩) ∧
    (∀ key v, Event.cachePut key v ∈ (storeImpl b p bs idx k).events →
      jobComplete b.outputToInputMap
        ((insertOutput b idx k r).outputRefs.getD idx []) idx = true) := by
  have hmap : (insertOutput b idx k r).outputToInputMap = b.outputToInputMap := rfl
  constructor
  · intro hmiss
    rw [storeImpl_ok_eq b p bs idx k r hok]
    rw [finalize_incomplete_eq (insertOutput b idx k r) idx (hmap ▸ hmiss)]
  · intro key v hmem
    rw [storeImpl_ok_eq b p bs idx k r hok] at hmem
    simp only [List.mem_cons] at hmem
    rcases hmem with hc | hmem
    · exact absurd hc (by simp)
    · exact hmap ▸ finalize_events_put_complete _ idx key v hmem

/-- C1 witness: storing the object file alone on the single-input plan leaves
the job incomplete (the cached-diagnostics kind is still missing), so the
store succeeds with only the byte-store interaction. -/
theorem storeImpl_finalizes_only_when_complete_witness :
    storeImpl (mkBackend env0 0 io0 ActionType.EmitObject) "a.o" [1] 0
        FileTypeID.TY_Object =
      ⟨insertOutput (mkBackend env0 0 io0 ActionType.EmitObject) 0
          FileTypeID.TY_Object 1, [Event.casStore [1]], none⟩ :=
  (storeImpl_finalizes_only_when_complete
    (mkBackend env0 0 io0 ActionType.EmitObject) "a.o" [1] 0
    FileTypeID.TY_Object 1 rfl).1 (by decide)

/-- C5: when the content store fails, storeImpl propagates the store error
without mutating the pending sets and without any external interaction, so a
retry on the resulting state (under any behaviour of the external
collaborators) proceeds exactly as a retry on the original state would. -/
theorem storeImpl_storeError_no_mutation (b : Backend) (p : String)
    (bs : ByteString) (idx : Nat) (k : FileTypeID) (e : Unit)
    (herr : b.env.storeBytes bs = Except.error e) :
    storeImpl b p bs idx k = ⟨b, [], some BackendError.storeError⟩ ∧
    ∀ env2 : Env,
      storeImpl { (storeImpl b p bs idx k).state with env := env2 } p bs idx k =
        storeImpl { b with env := env2 } p bs idx k := by
  have h1 : storeImpl b p bs idx k = ⟨b, [], some BackendError.storeError⟩ := by
    simp [storeImpl, herr]
  exact ⟨h1, fun env2 => by rw [h1]⟩

/-- C5 witness: a failing-store environment on the single-input plan. -/
def envFail : Env := { env0 with storeBytes := fun _ => Except.error () }

/-- C5 witness: the failing store leaves the backend untouched, and the retry
with a working environment proceeds exactly as from the original state. -/
theorem storeImpl_storeError_no_mutation_witness :
    storeImpl (mkBackend envFail 0 io0 ActionType.EmitObject) "a.o" [1] 0
        FileTypeID.TY_Object =
      ⟨mkBackend envFail 0 io0 ActionType.EmitObject, [],
        some BackendError.storeError⟩ ∧
    storeImpl
        { (storeImpl (mkBackend envFail 0 io0 ActionType.EmitObject) "a.o" [1] 0
            FileTypeID.TY_Object).state with env := env0 } "a.o" [1] 0
        FileTypeID.TY_Object =
      storeImpl { mkBackend envFail 0 io0 ActionType.EmitObject with env := env0 }
        "a.o" [1] 0 FileTypeID.TY_Object :=
  ⟨(storeImpl_storeError_no_mutation (mkBackend envFail 0 io0 ActionType.EmitObject)
      "a.o" [1] 0 FileTypeID.TY_Object () rfl).1,
    (storeImpl_storeError_no_mutation (mkBackend envFail 0 io0 ActionType.EmitObject)
      "a.o" [1] 0 FileTypeID.TY_Object () rfl).2 env0⟩

/-- C6: requesting an output at a path absent from the route table fails with
routeNotFound, before any content-store or action-cache interaction: the
backend state is unchanged and the event list is empty. -/
theorem createFileImpl_routeNotFound (b : Backend) (p : String) (bs : ByteString)
    (h : smLookup b.outputToInputMap p = none) :
    createFileImpl b p = Except.error BackendError.routeNotFound ∧
    keepOutput b p bs = ⟨b, [], some BackendError.routeNotFound⟩ := by
  have h1 : createFileImpl b p = Except.error BackendError.routeNotFound := by
    simp [createFileImpl, h]
  exact ⟨h1, by simp [keepOutput, h1]⟩

/-- C6 witness: an undeclared path on the single-input plan. -/
theorem createFileImpl_routeNotFound_witness :
    createFileImpl (mkBackend env0 0 io0 ActionType.EmitObject) "undeclared.o" =
      Except.error BackendError.routeNotFound ∧
    keepOutput (mkBackend env0 0 io0 ActionType.EmitObject) "undeclared.o" [1] =
      ⟨mkBackend env0 0 io0 ActionType.EmitObject, [],
        some BackendError.routeNotFound⟩ :=
  createFileImpl_routeNotFound (mkBackend env0 0 io0 ActionType.EmitObject)
    "undeclared.o" [1] (by decide)

/-- C10: cloning produces a backend with the same content store, action cache
and key derivation (the environment), the same base key, job plan and action
type, a route table rebuilt from the job plan, and fresh, empty pending
artifact maps regardless of the original backend's pending state. -/
theorem cloneImpl_fresh_state (b : Backend) :
    (cloneImpl b).env = b.env ∧
    (cloneImpl b).baseKey = b.baseKey ∧
    (cloneImpl b).inputsAndOutputs = b.inputsAndOutputs ∧
    (cloneImpl b).action = b.action ∧
    (cloneImpl b).outputToInputMap = initBackend b.inputsAndOutputs ∧
    (cloneImpl b).outputRefs = List.replicate b.inputsAndOutputs.inputs.length [] ∧
    ∀ i : Nat, (cloneImpl b).outputRefs.getD i [] = [] := by
  refine ⟨rfl, rfl, rfl, rfl, rfl, rfl, fun i => ?_⟩
  show (List.replicate b.inputsAndOutputs.inputs.length ([] : DMap)).getD i [] = []
  rcases Nat.lt_or_ge i
      (List.replicate b.inputsAndOutputs.inputs.length ([] : DMap)).length with hlt | hge
  · rw [List.getD_eq_getElem _ _ hlt, List.getElem_replicate]
  · rw [List.getD_eq_default _ _ hge]

/-- C2 counterexample: on the single-input plan, storing the object file, the
cached diagnostics (completing the job and performing a put) and then the
object file again performs a second action-cache put for the same job, so the
put is not performed at most once over this sequence of successful stores. -/
theorem storeImpl_double_put_counterexample :
    (storeImpl (mkBackend env0 0 io0 ActionType.EmitObject) "a.o" [1] 0
        FileTypeID.TY_Object).error = none ∧
    (storeCachedDiagnostics
        (storeImpl (mkBackend env0 0 io0 ActionType.EmitObject) "a.o" [1] 0
          FileTypeID.TY_Object).state 0 [2]).error = none ∧
    (storeImpl
        (storeCachedDiagnostics
          (storeImpl (mkBackend env0 0 io0 ActionType.EmitObject) "a.o" [1] 0
            FileTypeID.TY_Object).state 0 [2]).state "a.o" [1] 0
        FileTypeID.TY_Object).error = none ∧
    countPuts (storeCachedDiagnostics
        (storeImpl (mkBackend env0 0 io0 ActionType.EmitObject) "a.o" [1] 0
          FileTypeID.TY_Object).state 0 [2]).events = 1 ∧
    countPuts (storeImpl
        (storeCachedDiagnostics
          (storeImpl (mkBackend env0 0 io0 ActionType.EmitObject) "a.o" [1] 0
            FileTypeID.TY_Object).state 0 [2]).state "a.o" [1] 0
        FileTypeID.TY_Object).events = 1 := by
  decide

/-- C2 amended: a put happens exactly when a store finds the job complete; a
later successful store for a kind already present leaves the pending state
unchanged and re-runs finalization on that unchanged state, so a store for an
already-complete job repeats the identical put (same key, same value) instead
of being suppressed. -/
theorem storeImpl_repeat_finalize_identical (b : Backend) (p : String)
    (bs : ByteString) (idx : Nat) (k : FileTypeID) (r : ObjectRef)
    (hok : b.env.storeBytes bs = Except.ok r)
    (hmem : dmContains (b.outputRefs.getD idx []) k = true) :
    storeImpl b p bs idx k =
      ⟨b, Event.casStore bs :: (finalizeCacheKeysFor b idx).events,
        (finalizeCacheKeysFor b idx).error⟩ := by
  rw [storeImpl_ok_eq b p bs idx k r hok, insertOutput_contained b idx k r hmem]

/-- C2 amended witness: re-storing the object file on the completed
single-input job repeats exactly the finalization of the unchanged state. -/
theorem storeImpl_repeat_finalize_identical_witness :
    storeImpl
        (storeCachedDiagnostics
          (storeImpl (mkBackend env0 0 io0 ActionType.EmitObject) "a.o" [1] 0
            FileTypeID.TY_Object).state 0 [2]).state "a.o" [1] 0
        FileTypeID.TY_Object =
      ⟨(storeCachedDiagnostics
          (storeImpl (mkBackend env0 0 io0 ActionType.EmitObject) "a.o" [1] 0
            FileTypeID.TY_Object).state 0 [2]).state,
        Event.casStore [1] ::
          (finalizeCacheKeysFor
            (storeCachedDiagnostics
              (storeImpl (mkBackend env0 0 io0 ActionType.EmitObject) "a.o" [1] 0
                FileTypeID.TY_Object).state 0 [2]).state 0).events,
        (finalizeCacheKeysFor
          (storeCachedDiagnostics
            (storeImpl (mkBackend env0 0 io0 ActionType.EmitObject) "a.o" [1] 0
              FileTypeID.TY_Object).state 0 [2]).state 0).error⟩ :=
  storeImpl_repeat_finalize_identical _ "a.o" [1] 0 FileTypeID.TY_Object 1 rfl
    (by decide)

/-- C7 counterexample: after a second successful store of the object kind with
different bytes (reference 2), the pending set still maps the kind to the
first reference 1, not to the reference of the later write. -/
theorem store_overwrite_counterexample :
    (storeImpl (mkBackend env0 0 io0 ActionType.EmitObject) "a.o" [1] 0
        FileTypeID.TY_Object).error = none ∧
    (storeImpl
        (storeImpl (mkBackend env0 0 io0 ActionType.EmitObject) "a.o" [1] 0
          FileTypeID.TY_Object).state "a.o" [2] 0 FileTypeID.TY_Object).error =
      none ∧
    (mkBackend env0 0 io0 ActionType.EmitObject).env.storeBytes [2] =
      Except.ok 2 ∧
    dmLookup ((storeImpl
        (storeImpl (mkBackend env0 0 io0 ActionType.EmitObject) "a.o" [1] 0
          FileTypeID.TY_Object).state "a.o" [2] 0
        FileTypeID.TY_Object).state.outputRefs.getD 0 [])
      FileTypeID.TY_Object = some 1 :=
  ⟨by decide, by decide, rfl, by decide⟩

/-- C7 amended: when an artifact of a kind already present in a job's pending
set is stored again successfully, the pending set is left unchanged: the kind
keeps the reference of the first write, and the later reference is not
recorded (DenseMap::insert keeps the existing entry). -/
theorem store_existing_kind_keeps_first (b : Backend) (p : String)
    (bs : ByteString) (idx : Nat) (k : FileTypeID) (r : ObjectRef)
    (hok : b.env.storeBytes bs = Except.ok r)
    (hmem : dmContains (b.outputRefs.getD idx []) k = true) :
    (storeImpl b p bs idx k).state = b ∧
    dmLookup ((storeImpl b p bs idx k).state.outputRefs.getD idx []) k =
      dmLookup (b.outputRefs.getD idx []) k := by
  have h1 : (storeImpl b p bs idx k).state = b := by
    rw [storeImpl_ok_eq b p bs idx k r hok, insertOutput_contained b idx k r hmem]
  exact ⟨h1, by rw [h1]⟩

/-- C7 amended witness: the second store of the object kind leaves the state
of the single-input backend unchanged. -/
theorem store_existing_kind_keeps_first_witness :
    (storeImpl
        (storeImpl (mkBackend env0 0 io0 ActionType.EmitObject) "a.o" [1] 0
          FileTypeID.TY_Object).state "a.o" [2] 0 FileTypeID.TY_Object).state =
      (storeImpl (mkBackend env0 0 io0 ActionType.EmitObject) "a.o" [1] 0
        FileTypeID.TY_Object).state ∧
    dmLookup ((storeImpl
        (storeImpl (mkBackend env0 0 io0 ActionType.EmitObject) "a.o" [1] 0
          FileTypeID.TY_Object).state "a.o" [2] 0
        FileTypeID.TY_Object).state.outputRefs.getD 0 [])
      FileTypeID.TY_Object =
      dmLookup ((storeImpl (mkBackend env0 0 io0 ActionType.EmitObject) "a.o" [1]
          0 FileTypeID.TY_Object).state.outputRefs.getD 0 [])
      FileTypeID.TY_Object :=
  store_existing_kind_keeps_first _ "a.o" [2] 0 FileTypeID.TY_Object 2 rfl
    (by decide)

/-- Helper: the clang-compatible builder fails with encodeError whenever some
kind in the list has no schema slot. -/
theorem clangSlots_error_of_bad (l : List (FileTypeID × ObjectRef))
    (k : FileTypeID) (hmem : k ∈ l.map Prod.fst) (hbad : clangSlotOf k = none) :
    clangSlots l = Except.error BackendError.encodeError := by
  induction l with
  | nil => simp at hmem
  | cons a rest ih =>
    obtain ⟨k1, r1⟩ := a
    simp only [List.map_cons, List.mem_cons] at hmem
    rcases hmem with heq | hmem
    · subst heq
      simp [clangSlots, hbad]
    · have hrest := ih hmem
      cases h1 : clangSlotOf k1 with
      | none => simp [clangSlots, h1]
      | some ck => simp [clangSlots, h1, hrest]

/-- C4: under the restricted (EmitPCM) schema, finalizing a completed artifact
set that contains any kind other than the clang-module file, the cached
diagnostics or the dependency list fails with encodeError, with no
content-store or action-cache interaction: in particular no cache entry is
written for the job. -/
theorem restricted_schema_encode_error (b : Backend) (idx : Nat) (k : FileTypeID)
    (hact : b.action = ActionType.EmitPCM)
    (hcomplete : jobComplete b.outputToInputMap (b.outputRefs.getD idx []) idx = true)
    (hmem : k ∈ (b.outputRefs.getD idx []).map Prod.fst)
    (hbad1 : k ≠ FileTypeID.TY_ClangModuleFile)
    (hbad2 : k ≠ FileTypeID.TY_CachedDiagnostics)
    (hbad3 : k ≠ FileTypeID.TY_Dependencies) :
    finalizeCacheKeysFor b idx = ⟨b, [], some BackendError.encodeError⟩ := by
  have hslot : clangSlotOf k = none := by
    cases k <;> simp_all [clangSlotOf]
  have hmemsort : k ∈ (sortByKind (b.outputRefs.getD idx [])).map Prod.fst := by
    rcases List.mem_map.mp hmem with ⟨a, ha, hk⟩
    exact List.mem_map.mpr ⟨a, by simpa [sortByKind] using ha, hk⟩
  have henc : clangSlots (sortByKind (b.outputRefs.getD idx [])) =
      Except.error BackendError.encodeError :=
    clangSlots_error_of_bad _ k hmemsort hslot
  have hbuild : buildResult b.action (sortByKind (b.outputRefs.getD idx [])) =
      Except.error BackendError.encodeError := by
    rw [hact]
    simp only [buildResult]
    rw [henc]
  unfold finalizeCacheKeysFor
  dsimp only
  rw [hcomplete, hbuild]
  rfl

/-- C4 witness: single-input EmitPCM plan with pending clang module, cached
diagnostics and an out-of-schema swiftmodule artifact. -/
def ioPCM : InputsAndOutputs :=
  ⟨[⟨"m.pcm", []⟩], FileTypeID.TY_ClangModuleFile, 0⟩

/-- C4 witness: finalizing the completed EmitPCM job whose pending set also
holds a swiftmodule artifact fails with encodeError and performs no
interaction. -/
theorem restricted_schema_encode_error_witness :
    finalizeCacheKeysFor
        (insertOutput (insertOutput (insertOutput
          (mkBackend env0 0 ioPCM ActionType.EmitPCM)
          0 FileTypeID.TY_ClangModuleFile 1)
          0 FileTypeID.TY_CachedDiagnostics 2)
          0 FileTypeID.TY_SwiftModuleFile 3) 0 =
      ⟨insertOutput (insertOutput (insertOutput
          (mkBackend env0 0 ioPCM ActionType.EmitPCM)
          0 FileTypeID.TY_ClangModuleFile 1)
          0 FileTypeID.TY_CachedDiagnostics 2)
          0 FileTypeID.TY_SwiftModuleFile 3, [],
        some BackendError.encodeError⟩ :=
  restricted_schema_encode_error _ 0 FileTypeID.TY_SwiftModuleFile rfl
    (by decide) (by decide) (by decide) (by decide) (by decide)

/-- C8 counterexample: a plan in which both inputs declare the same main
output path is accepted: the route table is constructed (no fatal error is
representable or raised in initBackend, which has no failure path) and the
duplicated path is mapped to the first job's route. -/
theorem initBackend_duplicate_counterexample :
    smLookup (initBackend ⟨[⟨"a.o", []⟩, ⟨"a.o", []⟩], FileTypeID.TY_Object, 0⟩)
        "a.o" = some (0, FileTypeID.TY_Object) ∧
    (initBackend ⟨[⟨"a.o", []⟩, ⟨"a.o", []⟩], FileTypeID.TY_Object, 0⟩).length =
      2 := by
  decide

/-- Helper: lookup of a bound key is unchanged by appending entries. -/
theorem smLookup_append_left (m m2 : RouteMap) (p : String) (v : Nat × FileTypeID)
    (h : smLookup m p = some v) : smLookup (m ++ m2) p = some v := by
  induction m with
  | nil => simp [smLookup] at h
  | cons a rest ih =>
    obtain ⟨k, w⟩ := a
    by_cases hk : k = p
    · subst hk
      simp [smLookup] at h ⊢
      exact h
    · simp only [List.cons_append, smLookup, if_neg hk] at h ⊢
      exact ih h

/-- Helper: lookup of a bound key is unchanged by a later insert (the insert
either hits an existing key and is dropped, or appends at the end). -/
theorem smLookup_insert_preserve (m : RouteMap) (k2 : String)
    (v2 : Nat × FileTypeID) (p : String) (v : Nat × FileTypeID)
    (h : smLookup m p = some v) : smLookup (smInsert m k2 v2) p = some v := by
  unfold smInsert
  split
  · exact h
  · exact smLookup_append_left m _ p v h

/-- Helper: lookup of a bound key is unchanged by the supplementary-output
fold of initBackend. -/
theorem smLookup_foldl_supp_preserve (l : List (String × FileTypeID))
    (m : RouteMap) (idx : Nat) (p : String) (v : Nat × FileTypeID)
    (h : smLookup m p = some v) :
    smLookup (l.foldl (fun acc e =>
      if isProducedFromDiagnostics e.2 then acc
      else smInsert acc e.1 (idx, e.2)) m) p = some v := by
  induction l generalizing m with
  | nil => exact h
  | cons a rest ih =>
    simp only [List.foldl_cons]
    apply ih
    by_cases hd : isProducedFromDiagnostics a.2
    · simpa [hd] using h
    · simpa [hd] using smLookup_insert_preserve m a.1 (idx, a.2) p v h

/-- C8 amended: route-table construction never fails; when two inputs declare
the same non-empty main output path, the table is built and maps that path to
the first input's route, silently dropping the second input's route
(StringMap::insert keeps the existing entry). -/
theorem initBackend_duplicate_keeps_first (s : String)
    (l1 l2 : List (String × FileTypeID)) (ty : FileTypeID) (fi : Nat)
    (hs : s ≠ "") :
    smLookup (initBackend ⟨[⟨s, l1⟩, ⟨s, l2⟩], ty, fi⟩) s = some (0, ty) := by
  have h0 : smLookup (smInsert ([] : RouteMap) s (0, ty)) s = some (0, ty) := by
    simp [smInsert, smLookup]
  unfold initBackend
  simp only [List.enum, List.enumFrom, List.foldl_cons, List.foldl_nil, if_pos hs]
  apply smLookup_insert_preserve
  apply smLookup_foldl_supp_preserve
  apply smLookup_insert_preserve
  apply smLookup_foldl_supp_preserve
  exact h0

/-- C8 amended witness: the duplicate-path plan of the counterexample. -/
theorem initBackend_duplicate_keeps_first_witness :
    smLookup (initBackend ⟨[⟨"a.o", []⟩, ⟨"a.o", []⟩], FileTypeID.TY_Object, 7⟩)
        "a.o" = some (0, FileTypeID.TY_Object) :=
  initBackend_duplicate_keeps_first "a.o" [] [] FileTypeID.TY_Object 7 (by decide)

/-- C9 counterexample: on the single-input plan, storing the only
non-diagnostics declared artifact does not finalize the job (no put happens
because the synthetic cached-diagnostics kind is still missing), and storing
the cached diagnostics stores their bytes in the content store, adds the kind
to the pending set, and triggers the finalization put. -/
theorem diagnostics_affect_finalization_counterexample :
    countPuts (storeImpl (mkBackend env0 0 io0 ActionType.EmitObject) "a.o" [1]
        0 FileTypeID.TY_Object).events = 0 ∧
    (storeImpl (mkBackend env0 0 io0 ActionType.EmitObject) "a.o" [1] 0
        FileTypeID.TY_Object).error = none ∧
    (storeCachedDiagnostics
        (storeImpl (mkBackend env0 0 io0 ActionType.EmitObject) "a.o" [1] 0
          FileTypeID.TY_Object).state 0 [5]).events =
      [Event.casStore [5],
        Event.casStoreRecord (CacheRecord.swiftSchema
          [(FileTypeID.TY_Object, 1), (FileTypeID.TY_CachedDiagnostics, 5)]),
        Event.cachePut 50 100] ∧
    dmContains ((storeCachedDiagnostics
        (storeImpl (mkBackend env0 0 io0 ActionType.EmitObject) "a.o" [1] 0
          FileTypeID.TY_Object).state 0 [5]).state.outputRefs.getD 0 [])
      FileTypeID.TY_CachedDiagnostics = true := by
  decide

/-- C9 amended: keeping an output routed to a kind that is produced from
diagnostics bypasses the content store, the pending set and finalization
entirely (null output file); but the cached-diagnostics pseudo-artifact is
stored into the content store by storeCachedDiagnostics, is inserted into the
pending set of its input, and finalization is re-evaluated with it present. -/
theorem diagnostics_bypass_and_cached_diag_stored (b : Backend) (p : String)
    (bs : ByteString) (i j : Nat) (ty : FileTypeID) (r : ObjectRef)
    (hroute : smLookup b.outputToInputMap p = some (i, ty))
    (hdiag : isProducedFromDiagnostics ty = true)
    (hok : b.env.storeBytes bs = Except.ok r) :
    keepOutput b p bs = ⟨b, [], none⟩ ∧
    (storeCachedDiagnostics b j bs).state =
      insertOutput b j FileTypeID.TY_CachedDiagnostics r ∧
    (storeCachedDiagnostics b j bs).events =
      Event.casStore bs ::
        (finalizeCacheKeysFor
          (insertOutput b j FileTypeID.TY_CachedDiagnostics r) j).events := by
  refine ⟨?_, ?_, ?_⟩
  · simp [keepOutput, createFileImpl, hroute, hdiag]
  · rw [storeCachedDiagnostics, storeImpl_ok_eq b _ bs j _ r hok]
  · rw [storeCachedDiagnostics, storeImpl_ok_eq b _ bs j _ r hok]

/-- C9 amended witness: the synthetic cached-diagnostics route of the
single-input plan is produced-from-diagnostics, so keeping it through the
file interface is a no-op, while storeCachedDiagnostics stores and inserts. -/
theorem diagnostics_bypass_and_cached_diag_stored_witness :
    keepOutput (mkBackend env0 0 io0 ActionType.EmitObject)
        "<cached-diagnostics>" [5] =
      ⟨mkBackend env0 0 io0 ActionType.EmitObject, [], none⟩ ∧
    (storeCachedDiagnostics (mkBackend env0 0 io0 ActionType.EmitObject) 0
        [5]).state =
      insertOutput (mkBackend env0 0 io0 ActionType.EmitObject) 0
        FileTypeID.TY_CachedDiagnostics 5 ∧
    (storeCachedDiagnostics (mkBackend env0 0 io0 ActionType.EmitObject) 0
        [5]).events =
      Event.casStore [5] ::
        (finalizeCacheKeysFor
          (insertOutput (mkBackend env0 0 io0 ActionType.EmitObject) 0
            FileTypeID.TY_CachedDiagnostics 5) 0).events :=
  diagnostics_bypass_and_cached_diag_stored
    (mkBackend env0 0 io0 ActionType.EmitObject) "<cached-diagnostics>" [5] 0 0
    FileTypeID.TY_CachedDiagnostics 5 (by decide) rfl rfl

/-- Helper: the position in the fixed kind order determines the kind. -/
theorem kindIdx_inj {x y : FileTypeID} (h : kindIdx x = kindIdx y) : x = y := by
  cases x <;> cases y <;> revert h <;> decide

instance : IsAntisymm (FileTypeID × ObjectRef) (fun a b => kindIdx a.1 < kindIdx b.1) :=
  ⟨fun _ _ h1 h2 => absurd (Nat.lt_trans h1 h2) (Nat.lt_irrefl _)⟩

/-- Helper: with pairwise-distinct kinds the sort is strictly increasing. -/
theorem sortByKind_sorted_lt (l : List (FileTypeID × ObjectRef))
    (hn : (l.map Prod.fst).Nodup) :
    (sortByKind l).Sorted (fun a b => kindIdx a.1 < kindIdx b.1) := by
  have hs : (sortByKind l).Sorted kindLE := List.sorted_insertionSort kindLE l
  have hperm : (sortByKind l).Perm l := List.perm_insertionSort kindLE l
  have hn2 : ((sortByKind l).map Prod.fst).Nodup :=
    ((hperm.map Prod.fst).nodup_iff).mpr hn
  have hne : (sortByKind l).Pairwise (fun a b => a.1 ≠ b.1) :=
    (List.pairwise_map).mp hn2
  exact (hs.and hne).imp
    (fun h => Nat.lt_of_le_of_ne h.1 (fun hk => h.2 (kindIdx_inj hk)))

/-- Helper: with pairwise-distinct kinds, sorting is a canonical form: any two
permuted pair lists sort to the same list. -/
theorem sortByKind_perm_eq (l1 l2 : List (FileTypeID × ObjectRef))
    (h : l1.Perm l2) (hn : (l1.map Prod.fst).Nodup) :
    sortByKind l1 = sortByKind l2 := by
  have hp : (sortByKind l1).Perm (sortByKind l2) :=
    (List.perm_insertionSort kindLE l1).trans
      (h.trans (List.perm_insertionSort kindLE l2).symm)
  exact List.eq_of_perm_of_sorted hp (sortByKind_sorted_lt l1 hn)
    (sortByKind_sorted_lt l2 (((h.map Prod.fst).nodup_iff).mp hn))

/-- Helper: membership in a concatenation of pending maps. -/
theorem dmContains_append (m1 m2 : DMap) (q : FileTypeID) :
    dmContains (m1 ++ m2) q = (dmContains m1 q || dmContains m2 q) := by
  induction m1 with
  | nil => simp [dmContains]
  | cons a rest ih =>
    obtain ⟨k, r⟩ := a
    by_cases hk : k = q <;> simp [dmContains, hk, ih]

/-- Helper: state component of a successful store. -/
theorem storeImpl_ok_state (b : Backend) (p : String) (bs : ByteString)
    (idx : Nat) (k : FileTypeID) (r : ObjectRef)
    (h : b.env.storeBytes bs = Except.ok r) :
    (storeImpl b p bs idx k).state = insertOutput b idx k r := by
  rw [storeImpl_ok_eq b p bs idx k r h]

/-- Helper: pending map of the mutated input after an insert. -/
theorem insertOutput_getD (b : Backend) (idx : Nat) (k : FileTypeID)
    (r : ObjectRef) (h : idx < b.outputRefs.length) :
    (insertOutput b idx k r).outputRefs.getD idx [] =
      dmInsert (b.outputRefs.getD idx []) k r := by
  unfold insertOutput
  dsimp only
  rw [List.getD_eq_getElem _ _ (by simpa using h)]
  simp [List.getElem_set_self]

/-- Helper: a sequence of successful stores of pairwise-fresh kinds appends
the stored references, in arrival order, to the input's pending map. -/
theorem storeSeq_pending (refOf : ByteString → ObjectRef) :
    ∀ (arts : List (FileTypeID × ByteString)) (b : Backend) (idx : Nat),
    (∀ bs, b.env.storeBytes bs = Except.ok (refOf bs)) →
    idx < b.outputRefs.length →
    (∀ a ∈ arts, dmContains (b.outputRefs.getD idx []) a.1 = false) →
    (arts.map Prod.fst).Nodup →
    (storeSeq b idx arts).outputRefs.getD idx [] =
      b.outputRefs.getD idx [] ++ arts.map (fun a => (a.1, refOf a.2)) := by
  intro arts
  induction arts with
  | nil =>
    intro b idx _ _ _ _
    simp [storeSeq]
  | cons a rest ih =>
    intro b idx hstore hidx hfresh hnodup
    obtain ⟨k, bs⟩ := a
    have hk : dmContains (b.outputRefs.getD idx []) k = false :=
      hfresh (k, bs) (by simp)
    have hstep : (storeImpl b "" bs idx k).state = insertOutput b idx k (refOf bs) :=
      storeImpl_ok_state b "" bs idx k (refOf bs) (hstore bs)
    have hpend1 : (insertOutput b idx k (refOf bs)).outputRefs.getD idx [] =
        b.outputRefs.getD idx [] ++ [(k, refOf bs)] := by
      rw [insertOutput_getD b idx k (refOf bs) hidx]
      unfold dmInsert
      rw [hk]
      simp
    have hlen1 : idx < (insertOutput b idx k (refOf bs)).outputRefs.length := by
      simpa [insertOutput] using hidx
    have hnodup0 := hnodup
    simp only [List.map_cons, List.nodup_cons] at hnodup0
    have hfresh1 : ∀ x ∈ rest,
        dmContains ((insertOutput b idx k (refOf bs)).outputRefs.getD idx [])
          x.1 = false := by
      intro x hx
      have hx1 : dmContains (b.outputRefs.getD idx []) x.1 = false :=
        hfresh x (by simp [hx])
      have hkx : ¬ (k = x.1) := by
        intro hke
        exact hnodup0.1 (List.mem_map.mpr ⟨x, hx, hke.symm⟩)
      rw [hpend1, dmContains_append, hx1]
      simp [dmContains, hkx]
    have ihr := ih (insertOutput b idx k (refOf bs)) idx
      (fun bs2 => hstore bs2) hlen1 hfresh1 hnodup0.2
    show (storeSeq (storeImpl b "" bs idx k).state idx rest).outputRefs.getD
        idx [] = _
    rw [hstep, ihr, hpend1]
    simp

/-- C3: for a job whose stored kinds are pairwise distinct, storing the
artifacts in any permutation yields the identical encoded aggregate record,
and therefore the identical content reference for the stored record. -/
theorem encode_order_independent (b : Backend) (idx : Nat)
    (refOf : ByteString → ObjectRef)
    (arts1 arts2 : List (FileTypeID × ByteString))
    (hstore : ∀ bs, b.env.storeBytes bs = Except.ok (refOf bs))
    (hperm : arts1.Perm arts2)
    (hnodup : (arts1.map Prod.fst).Nodup)
    (hempty : b.outputRefs.getD idx [] = [])
    (hidx : idx < b.outputRefs.length) :
    buildResult b.action
        (sortByKind ((storeSeq b idx arts1).outputRefs.getD idx [])) =
      buildResult b.action
        (sortByKind ((storeSeq b idx arts2).outputRefs.getD idx [])) ∧
    recordRefOf b.env (buildResult b.action
        (sortByKind ((storeSeq b idx arts1).outputRefs.getD idx []))) =
      recordRefOf b.env (buildResult b.action
        (sortByKind ((storeSeq b idx arts2).outputRefs.getD idx []))) := by
  have hnodup2 : (arts2.map Prod.fst).Nodup :=
    ((hperm.map Prod.fst).nodup_iff).mp hnodup
  have hfresh1 : ∀ a ∈ arts1, dmContains (b.outputRefs.getD idx []) a.1 = false := by
    intro a _
    rw [hempty]
    rfl
  have hfresh2 : ∀ a ∈ arts2, dmContains (b.outputRefs.getD idx []) a.1 = false := by
    intro a _
    rw [hempty]
    rfl
  have hp1 : (storeSeq b idx arts1).outputRefs.getD idx [] =
      arts1.map (fun a => (a.1, refOf a.2)) := by
    rw [storeSeq_pending refOf arts1 b idx hstore hidx hfresh1 hnodup, hempty]
    simp
  have hp2 : (storeSeq b idx arts2).outputRefs.getD idx [] =
      arts2.map (fun a => (a.1, refOf a.2)) := by
    rw [storeSeq_pending refOf arts2 b idx hstore hidx hfresh2 hnodup2, hempty]
    simp
  have hmnodup : ((arts1.map (fun a => (a.1, refOf a.2))).map Prod.fst).Nodup := by
    have he : (arts1.map (fun a => (a.1, refOf a.2))).map Prod.fst =
        arts1.map Prod.fst := by
      simp [List.map_map, Function.comp]
    rw [he]
    exact hnodup
  have hsort : sortByKind (arts1.map (fun a => (a.1, refOf a.2))) =
      sortByKind (arts2.map (fun a => (a.1, refOf a.2))) :=
    sortByKind_perm_eq _ _ (hperm.map _) hmnodup
  rw [hp1, hp2, hsort]
  exact ⟨rfl, rfl⟩

/-- C3 witness: storing object then dependency list versus dependency list
then object on the single-input plan encodes to the identical record and
record reference. -/
theorem encode_order_independent_witness :
    buildResult (mkBackend env0 0 io0 ActionType.EmitObject).action
        (sortByKind ((storeSeq (mkBackend env0 0 io0 ActionType.EmitObject) 0
          [(FileTypeID.TY_Object, [1]),
           (FileTypeID.TY_Dependencies, [2])]).outputRefs.getD 0 [])) =
      buildResult (mkBackend env0 0 io0 ActionType.EmitObject).action
        (sortByKind ((storeSeq (mkBackend env0 0 io0 ActionType.EmitObject) 0
          [(FileTypeID.TY_Dependencies, [2]),
           (FileTypeID.TY_Object, [1])]).outputRefs.getD 0 [])) ∧
    recordRefOf (mkBackend env0 0 io0 ActionType.EmitObject).env
        (buildResult (mkBackend env0 0 io0 ActionType.EmitObject).action
          (sortByKind ((storeSeq (mkBackend env0 0 io0 ActionType.EmitObject) 0
            [(FileTypeID.TY_Object, [1]),
             (FileTypeID.TY_Dependencies, [2])]).outputRefs.getD 0 []))) =
      recordRefOf (mkBackend env0 0 io0 ActionType.EmitObject).env
        (buildResult (mkBackend env0 0 io0 ActionType.EmitObject).action
          (sortByKind ((storeSeq (mkBackend env0 0 io0 ActionType.EmitObject) 0
            [(FileTypeID.TY_Dependencies, [2]),
             (FileTypeID.TY_Object, [1])]).outputRefs.getD 0 []))) :=
  encode_order_independent (mkBackend env0 0 io0 ActionType.EmitObject) 0
    (fun bs => bs.headD 0)
    [(FileTypeID.TY_Object, [1]), (FileTypeID.TY_Dependencies, [2])]
    [(FileTypeID.TY_Dependencies, [2]), (FileTypeID.TY_Object, [1])]
    (fun _ => rfl) (by decide) (by decide) (by decide) (by decide)
